import Mathlib

/-!
Shallow embedding of `src/prepare_model.py` (SageMaker model preparation
script).  The filesystem is modelled explicitly as an association of paths
to directories (with their recursive text contents) and to files; the
`boto3` S3 client is modelled by an oracle `S3Outcome` describing whether
the single `upload_file` call reports success or raises a
`botocore.exceptions.ClientError`.  Fallible Python calls are `Except`
valued; `print` calls accumulate into a log list.
-/

namespace PrepareModel

/-- Contents a path can hold: a plain text file, or a tar archive written by
`tarfile`.  An archive is a list of entries `(arcname, data)`, where
`data = none` marks a directory entry and `data = some d` a file entry with
contents `d`. -/
inductive FileData where
  | text (s : String)
  | archive (entries : List (String × Option FileData))

/-- A tar entry as produced by `tarfile.TarFile.add`: archive-internal name
plus `none` for a directory marker or `some d` for file contents. -/
abbrev TarEntry := String × Option FileData

/-- The filesystem: directories (each with its recursive contents as
relative-path/text pairs, as consumed by a recursive `tar.add`) and regular
files. -/
structure FS where
  dirs : List (String × List (String × String))
  files : List (String × FileData)

/-- Look up a directory's recursive contents. -/
def FS.lookupDir (fs : FS) (p : String) : Option (List (String × String)) :=
  fs.dirs.lookup p

/-- Look up a regular file's data. -/
def FS.lookupFile (fs : FS) (p : String) : Option FileData :=
  fs.files.lookup p

/-- `os.path.exists`: true if the path names a directory or a file. -/
def FS.pathExists (fs : FS) (p : String) : Bool :=
  (fs.lookupDir p).isSome || (fs.lookupFile p).isSome

/-- `open(p, "w")` followed by writing `d`: a plain truncating write, the
previous file at `p` (if any) is replaced. -/
def FS.writeFile (fs : FS) (p : String) (d : FileData) : FS :=
  { fs with files := (p, d) :: fs.files.filter (fun e => e.1 != p) }

/-- Remove the regular file at `p` from the filesystem. -/
def FS.removeFile (fs : FS) (p : String) : FS :=
  { fs with files := fs.files.filter (fun e => e.1 != p) }

/-- `os.remove p`: deletes the regular file at `p`; raises (`.error`) if `p`
is not a regular file (missing, or a directory). -/
def os_remove (fs : FS) (p : String) : Except Unit FS :=
  if (fs.lookupFile p).isSome then .ok (fs.removeFile p) else .error ()

/-- `os.makedirs p (exist_ok := True)`: no-op if `p` is already a directory,
raises if `p` exists as a regular file, otherwise creates the (empty)
directory. -/
def os_makedirs (fs : FS) (p : String) : Except Unit FS :=
  if (fs.lookupDir p).isSome then .ok fs
  else if (fs.lookupFile p).isSome then .error ()
  else .ok { fs with dirs := (p, []) :: fs.dirs }

/-- `str.startswith(pre)` over the character lists (kernel-computable form
of string prefix test). -/
def str_startsWith (s pre : String) : Bool :=
  pre.data.isPrefixOf s.data

/-- `str.endswith(suf)` over the character lists (kernel-computable form of
string suffix test). -/
def str_endsWith (s suf : String) : Bool :=
  suf.data.isSuffixOf s.data

/-- `os.path.join a b` (POSIX): `b` if absolute, otherwise `a` and `b`
joined with a single separator. -/
def os_path_join (a b : String) : String :=
  if str_startsWith b "/" then b
  else if a = "" || str_endsWith a "/" then a ++ b
  else a ++ "/" ++ b

/-- `tar.add path (arcname := arc)`: a directory is added recursively (the
directory entry itself, then each contained file under `arc ++ "/"`); a
regular file is added as a single file entry.  `tar.add` raises on a missing
path, but every call site in the source first checks existence (or has just
created the file), so a missing path yields no entries here. -/
def tar_add (fs : FS) (path arc : String) : List TarEntry :=
  match fs.lookupDir path with
  | some contents =>
      (arc, none) :: contents.map (fun rc => (arc ++ "/" ++ rc.1, some (.text rc.2)))
  | none =>
      match fs.lookupFile path with
      | some d => [(arc, some d)]
      | none => []

/-- `create_inference_script()` from the source: returns the fixed inference
adapter script template. -/
def create_inference_script : String :=
  "import json\n" ++
  "import pickle\n" ++
  "import os\n" ++
  "import numpy as np\n" ++
  "from sagemaker_inference import content_types, decoder, default_inference_handler, encoder\n" ++
  "from sagemaker_inference import errors\n" ++
  "\n" ++
  "def model_fn(model_dir):\n" ++
  "    \"\"\"Load the model from disk\"\"\"\n" ++
  "    model_path = os.path.join(model_dir, \x27model.pkl\x27)\n" ++
  "    with open(model_path, \x27rb\x27) as f:\n" ++
  "        model = pickle.load(f)\n" ++
  "    return model\n" ++
  "\n" ++
  "def input_fn(input_data, content_type):\n" ++
  "    \"\"\"Parse input data payload\"\"\"\n" ++
  "    if content_type == content_types.JSON:\n" ++
  "        input_data = json.loads(input_data)\n" ++
  "    return input_data\n" ++
  "\n" ++
  "def predict_fn(input_data, model):\n" ++
  "    \"\"\"Inference request\"\"\"\n" ++
  "    return model.predict(input_data)\n" ++
  "\n" ++
  "def output_fn(prediction, accept):\n" ++
  "    \"\"\"Format prediction output\"\"\"\n" ++
  "    if accept == content_types.JSON:\n" ++
  "        return json.dumps(prediction.tolist())\n" ++
  "    return prediction\n"

/-- Outcome reported by the S3 client for the one `upload_file` call:
success, or a raised `botocore.exceptions.ClientError` with message `msg`.
(Only `ClientError` is caught by the source; it is the failure the spec
describes.) -/
inductive S3Outcome where
  | success
  | clientError (msg : String)

/-- `upload_to_s3(file_path, bucket_name, s3_key)` from the source, with the
client's behaviour supplied by `outcome`.  Returns the result (the S3 URL,
or `none` when the `ClientError` was caught) together with the printed
lines. -/
def upload_to_s3 (outcome : S3Outcome) (file_path bucket_name s3_key : String) :
    Option String × List String :=
  let log0 := ["Uploading " ++ file_path ++ " to s3://" ++ bucket_name ++ "/" ++ s3_key]
  match outcome with
  | .success =>
      (some ("s3://" ++ bucket_name ++ "/" ++ s3_key),
       log0 ++ ["Successfully uploaded to s3://" ++ bucket_name ++ "/" ++ s3_key])
  | .clientError msg =>
      (none, log0 ++ ["Error uploading to S3: " ++ msg])

/-- The text written by `create_requirements_file`'s loop: each package name
followed by a newline, in order (`f.write(package + "\n")` per iteration). -/
def reqContent (packages : List String) : String :=
  packages.foldl (fun acc p => acc ++ p ++ "\n") ""

/-- `create_requirements_file(packages)` from the source: truncating write
of `reqContent packages` to the fixed name `requirements.txt` in the current
working directory; returns the updated filesystem, the returned filename and
the printed lines. -/
def create_requirements_file (fs : FS) (packages : List String) :
    FS × String × List String :=
  let requirements_file := "requirements.txt"
  let fs1 := fs.writeFile requirements_file (.text (reqContent packages))
  (fs1, requirements_file,
   ["Created requirements.txt with packages: " ++ toString packages])

/-- `create_model_package(model_dir, output_file, requirements_file)` from
the source.  `tempName` is the fresh path handed out by
`tempfile.NamedTemporaryFile`; `addOk` is the oracle for whether the
`tar.add` of the temporary script raises.  Returns the built entry list (or
`.error` when the add raised: the `try`/`finally` unlinks the temp file and
the exception propagates), the resulting filesystem, and the printed lines.
The archive written to `output_file` holds the entries added before the
failure, since the `with` block closes the tar on the way out. -/
def create_model_package (fs : FS) (model_dir output_file : String)
    (requirements_file : Option String) (tempName : String) (addOk : Bool) :
    Except Unit (List TarEntry) × FS × List String :=
  let log0 := ["Creating model package: " ++ output_file]
  let modelEntries := if fs.pathExists model_dir then tar_add fs model_dir "model" else []
  let log1 := log0 ++ (if fs.pathExists model_dir then ["Adding model files from: " ++ model_dir] else [])
  let reqEntries :=
    match requirements_file with
    | some rf => if rf != "" && fs.pathExists rf then tar_add fs rf "requirements.txt" else []
    | none => []
  let log2 := log1 ++
    (match requirements_file with
     | some rf => if rf != "" && fs.pathExists rf then ["Adding requirements: " ++ rf] else []
     | none => [])
  let inference_script := create_inference_script
  let fs1 := fs.writeFile tempName (.text inference_script)
  if addOk then
    let entries := modelEntries ++ reqEntries ++ tar_add fs1 tempName "inference.py"
    let fs2 := (fs1.removeFile tempName).writeFile output_file (.archive entries)
    (.ok entries, fs2, log2 ++ ["Model package created: " ++ output_file])
  else
    let fs2 := (fs1.removeFile tempName).writeFile output_file
      (.archive (modelEntries ++ reqEntries))
    (.error (), fs2, log2)

/-- Lines 160–162 of the source: `if requirements_file and
os.path.exists(requirements_file): os.remove(requirements_file)` — the
end-of-run manifest cleanup, guarded by Python truthiness of the name and an
existence check. -/
def cleanup_requirements (fs : FS) (requirements_file : Option String) :
    Except Unit FS :=
  match requirements_file with
  | some rf => if rf != "" && fs.pathExists rf then os_remove fs rf else .ok fs
  | none => .ok fs

/-- Parsed command-line arguments of `main` (argparse: three required
strings, optional `nargs='+'` package list, output dir defaulting to
`"."`). -/
structure Args where
  model_dir : String
  bucket_name : String
  model_name : String
  requirements : Option (List String)
  output_dir : String := "."

/-- Observable outcome of a normally-returning run of `main`: final
filesystem, printed lines, the upload result `s3_url`, and the two derived
names `model_package` (local archive path) and `s3_key`. -/
structure RunResult where
  fs : FS
  log : List String
  s3_url : Option String
  model_package : String
  s3_key : String

/-- `main()` from the source: the linear orchestration.  `.error ()` models
an uncaught exception (from `os.makedirs` or from the archive build)
terminating the process; `.ok` models a normal return (process exit status
0 either way). -/
def main (fs0 : FS) (args : Args) (outcome : S3Outcome) (tempName : String)
    (addOk : Bool) : Except Unit RunResult :=
  match os_makedirs fs0 args.output_dir with
  | .error _ => .error ()
  | .ok fs1 =>
    let model_package := os_path_join args.output_dir (args.model_name ++ ".tar.gz")
    let (fs2, requirements_file, log2) :=
      match args.requirements with
      | some pkgs =>
          if pkgs.isEmpty then (fs1, none, [])
          else
            let (f, rf, lg) := create_requirements_file fs1 pkgs
            (f, some rf, lg)
      | none => (fs1, none, [])
    match create_model_package fs2 args.model_dir model_package requirements_file
        tempName addOk with
    | (.error _, _, _) => .error ()
    | (.ok _, fs3, log3) =>
      let s3_key := "models/" ++ args.model_name ++ ".tar.gz"
      let (s3_url, log4) := upload_to_s3 outcome model_package args.bucket_name s3_key
      let log5 :=
        match s3_url with
        | some url =>
            ["\n\u201a\u00fa\u00d6 Model successfully prepared and uploaded!",
             "\uf8ff\u00fc\u00ec\u00b6 Model package: " ++ model_package,
             "\u201a\u00f2\u00c5\u00d4\u220f\u00e8  S3 location: " ++ url,
             "\n\uf8ff\u00fc\u00ec\u00f9 Update your terraform.tfvars with:",
             "   model_data_url = \"" ++ url ++ "\""]
        | none => ["\u201a\u00f9\u00e5 Failed to upload model to S3"]
      match cleanup_requirements fs3 requirements_file with
      | .error _ => .error ()
      | .ok fs4 =>
          .ok ⟨fs4, log2 ++ log3 ++ log4 ++ log5, s3_url, model_package, s3_key⟩

/-- Split a character list at each newline: the lines of a text, with the
convention that a newline terminates a line (so text ending in a newline
yields a trailing empty segment). -/
def splitNl : List Char → List (List Char)
  | [] => [[]]
  | c :: cs =>
    match splitNl cs with
    | [] => [[]]
    | l :: ls => if c = '\n' then [] :: l :: ls else (c :: l) :: ls

/-! ### Helper lemmas about the filesystem model -/

theorem lookup_filter_ne {β : Type} (l : List (String × β)) (p q : String)
    (h : q ≠ p) : (l.filter (fun e => e.1 != p)).lookup q = l.lookup q := by
  induction l with
  | nil => rfl
  | cons e es ih =>
    by_cases hq : e.1 = q
    · subst hq
      have hne : (e.1 != p) = true := by
        simp [bne_iff_ne]
        exact h
      simp [List.filter, hne, List.lookup]
    · by_cases hp : e.1 = p
      · subst hp
        have hqe : (q == e.1) = false := by
          simp [beq_iff_eq]
          exact h
        have hff : (e.1 != e.1) = false := by simp
        simp [List.filter, hff, List.lookup, hqe, ih]
      · have hne : (e.1 != p) = true := by
          simp [bne_iff_ne]
          exact hp
        have hqe : (q == e.1) = false := by
          simp [beq_iff_eq]
          exact fun hh => hq hh.symm
        simp [List.filter, hne, List.lookup, hqe, ih]

theorem lookup_filter_self {β : Type} (l : List (String × β)) (p : String) :
    (l.filter (fun e => e.1 != p)).lookup p = none := by
  induction l with
  | nil => rfl
  | cons e es ih =>
    by_cases hp : e.1 = p
    · subst hp
      have : (e.1 != e.1) = false := by simp
      simp [List.filter, this, ih]
    · have hne : (e.1 != p) = true := by
        simp [bne_iff_ne]
        exact hp
      have hpe : (p == e.1) = false := by
        simp [beq_iff_eq]
        exact fun hh => hp hh.symm
      simp [List.filter, hne, List.lookup, hpe, ih]

theorem lookupFile_writeFile_self (fs : FS) (p : String) (d : FileData) :
    (fs.writeFile p d).lookupFile p = some d := by
  simp [FS.writeFile, FS.lookupFile, List.lookup]

theorem lookupFile_writeFile_ne (fs : FS) (p q : String) (d : FileData)
    (h : q ≠ p) : (fs.writeFile p d).lookupFile q = fs.lookupFile q := by
  have hq : (q == p) = false := by
    simp [beq_iff_eq]
    exact h
  simp [FS.writeFile, FS.lookupFile, List.lookup, hq, lookup_filter_ne _ _ _ h]

theorem lookupFile_removeFile_self (fs : FS) (p : String) :
    (fs.removeFile p).lookupFile p = none := by
  simp [FS.removeFile, FS.lookupFile, lookup_filter_self]

theorem lookupFile_removeFile_ne (fs : FS) (p q : String) (h : q ≠ p) :
    (fs.removeFile p).lookupFile q = fs.lookupFile q := by
  simp [FS.removeFile, FS.lookupFile, lookup_filter_ne _ _ _ h]

theorem lookupDir_writeFile (fs : FS) (p q : String) (d : FileData) :
    (fs.writeFile p d).lookupDir q = fs.lookupDir q := by
  simp [FS.writeFile, FS.lookupDir]

theorem lookupDir_removeFile (fs : FS) (p q : String) :
    (fs.removeFile p).lookupDir q = fs.lookupDir q := by
  simp [FS.removeFile, FS.lookupDir]

theorem string_data_append (a b : String) : (a ++ b).data = a.data ++ b.data := rfl

theorem append_ne_of_head (a rel b : String)
    (hne : a.data ≠ []) (h : a.data.head? ≠ b.data.head?) : a ++ rel ≠ b := by
  intro heq
  apply h
  rw [← heq]
  show a.data.head? = (a.data ++ rel.data).head?
  obtain ⟨c, tl, hd⟩ : ∃ c tl, a.data = c :: tl := by
    cases hd : a.data with
    | nil => exact absurd hd hne
    | cons c tl => exact ⟨c, tl, rfl⟩
  rw [hd]
  rfl

theorem tarGz_ne_requirements (s : String) : s ++ ".tar.gz" ≠ "requirements.txt" := by
  intro h
  have h2 : (s.data ++ (".tar.gz" : String).data).getLast? =
      ("requirements.txt" : String).data.getLast? := by
    rw [show s.data ++ (".tar.gz" : String).data = (s ++ ".tar.gz").data from rfl, h]
  rw [List.getLast?_append_of_ne_nil _ (by decide)] at h2
  exact absurd h2 (by decide)

theorem model_package_ne_requirements (d n : String) :
    os_path_join d (n ++ ".tar.gz") ≠ "requirements.txt" := by
  unfold os_path_join
  split
  · exact tarGz_ne_requirements n
  · split
    · rw [← String.append_assoc]
      exact tarGz_ne_requirements _
    · rw [← String.append_assoc]
      exact tarGz_ne_requirements _

theorem pathExists_false (fs : FS) (p : String) (h : fs.pathExists p = false) :
    fs.lookupDir p = none ∧ fs.lookupFile p = none := by
  cases hd : fs.lookupDir p with
  | none =>
    cases hf : fs.lookupFile p with
    | none => exact ⟨rfl, rfl⟩
    | some d => simp [FS.pathExists, hd, hf] at h
  | some l => simp [FS.pathExists, hd] at h

theorem pathExists_of_lookupFile (fs : FS) (p : String) (d : FileData)
    (h : fs.lookupFile p = some d) : fs.pathExists p = true := by
  simp [FS.pathExists, h]

theorem pathExists_writeFile_ne (fs : FS) (p q : String) (d : FileData)
    (h : q ≠ p) : (fs.writeFile p d).pathExists q = fs.pathExists q := by
  simp [FS.pathExists, lookupDir_writeFile, lookupFile_writeFile_ne _ _ _ _ h]

theorem tar_add_names (fs : FS) (p arc : String) :
    ∀ e ∈ tar_add fs p arc, e.1 = arc ∨ ∃ rel, e.1 = arc ++ "/" ++ rel := by
  intro e he
  unfold tar_add at he
  split at he
  · rcases List.mem_cons.mp he with h | h
    · left
      rw [h]
    · rcases List.mem_map.mp h with ⟨rc, _, hrc⟩
      right
      exact ⟨rc.1, by rw [← hrc]⟩
  · split at he
    · left
      rw [List.mem_singleton.mp he]
    · cases he

theorem tar_add_head (fs : FS) (p arc : String) (h : fs.pathExists p = true) :
    ∃ d, (arc, d) ∈ tar_add fs p arc := by
  unfold tar_add
  cases hd : fs.lookupDir p with
  | some contents => exact ⟨none, List.mem_cons_self _ _⟩
  | none =>
    cases hf : fs.lookupFile p with
    | some d => exact ⟨some d, List.mem_singleton.mpr rfl⟩
    | none => simp [FS.pathExists, hd, hf] at h

theorem create_model_package_ok (fs : FS) (model_dir output_file : String)
    (rf : Option String) (tempName : String)
    (hfresh : fs.pathExists tempName = false) :
    (create_model_package fs model_dir output_file rf tempName true).1 =
      .ok ((if fs.pathExists model_dir then tar_add fs model_dir "model" else []) ++
        (match rf with
         | some r => if r != "" && fs.pathExists r then tar_add fs r "requirements.txt"
           else []
         | none => []) ++
        [("inference.py", some (.text create_inference_script))]) := by
  obtain ⟨hd, hf⟩ := pathExists_false fs tempName hfresh
  have h1 : (fs.writeFile tempName (.text create_inference_script)).lookupDir tempName
      = none := by
    rw [lookupDir_writeFile]
    exact hd
  have h2 : (fs.writeFile tempName (.text create_inference_script)).lookupFile tempName
      = some (.text create_inference_script) := lookupFile_writeFile_self _ _ _
  have h3 : tar_add (fs.writeFile tempName (.text create_inference_script)) tempName
      "inference.py" = [("inference.py", some (.text create_inference_script))] := by
    unfold tar_add
    rw [h1, h2]
  show Except.ok (_ ++ _ ++ tar_add (fs.writeFile tempName (.text create_inference_script))
      tempName "inference.py") = _
  rw [h3]

theorem filter_tar_add_not_inference (fs : FS) (p arc : String)
    (h1 : arc ≠ "inference.py")
    (h2 : ∀ rel, arc ++ "/" ++ rel ≠ "inference.py") :
    (tar_add fs p arc).filter (fun e => e.1 == "inference.py") = [] := by
  rw [List.filter_eq_nil_iff]
  intro e he
  rcases tar_add_names fs p arc e he with h | ⟨rel, h⟩
  · simp [h, h1]
  · simp [h, h2 rel]

theorem entries_filter_inference (fs : FS) (model_dir output_file : String)
    (rf : Option String) (tempName : String)
    (hfresh : fs.pathExists tempName = false) :
    ∃ es, (create_model_package fs model_dir output_file rf tempName true).1 = .ok es ∧
      es.filter (fun e => e.1 == "inference.py") =
        [("inference.py", some (.text create_inference_script))] := by
  refine ⟨_, create_model_package_ok fs model_dir output_file rf tempName hfresh, ?_⟩
  rw [List.filter_append, List.filter_append]
  have hm : (if fs.pathExists model_dir then tar_add fs model_dir "model"
      else []).filter (fun e => e.1 == "inference.py") = [] := by
    split
    · exact filter_tar_add_not_inference fs model_dir "model" (by decide)
        (fun rel => append_ne_of_head ("model" ++ "/") rel "inference.py"
          (by decide) (by decide))
    · rfl
  have hr : List.filter (fun e : TarEntry => e.1 == "inference.py")
      (match rf with
       | some r => if r != "" && fs.pathExists r then tar_add fs r "requirements.txt"
         else []
       | none => []) = [] := by
    match rf with
    | none => rfl
    | some r =>
      show (if r != "" && fs.pathExists r then tar_add fs r "requirements.txt"
        else []).filter (fun e => e.1 == "inference.py") = []
      split
      · exact filter_tar_add_not_inference fs r "requirements.txt" (by decide)
          (fun rel => append_ne_of_head ("requirements.txt" ++ "/") rel "inference.py"
            (by decide) (by decide))
      · rfl
  rw [hm, hr]
  rfl

theorem mem_req_part (fs : FS) (rf : Option String) (e : TarEntry)
    (he : e ∈ (match rf with
      | some r => if r != "" && fs.pathExists r then tar_add fs r "requirements.txt"
        else []
      | none => ([] : List TarEntry))) :
    ∃ r, rf = some r ∧ r ≠ "" ∧ fs.pathExists r = true ∧
      (e.1 = "requirements.txt" ∨ ∃ rel, e.1 = "requirements.txt" ++ "/" ++ rel) := by
  cases rf with
  | none => cases he
  | some r =>
    have he' : e ∈ (if r != "" && fs.pathExists r then tar_add fs r "requirements.txt"
        else []) := he
    by_cases hcond : (r != "" && fs.pathExists r) = true
    · rw [if_pos hcond] at he'
      obtain ⟨h1, h2⟩ := Bool.and_eq_true_iff.mp hcond
      exact ⟨r, rfl, bne_iff_ne.mp h1, h2, tar_add_names fs r "requirements.txt" e he'⟩
    · rw [if_neg hcond] at he'
      cases he'

theorem splitNl_cons (c : Char) (cs : List Char) :
    splitNl (c :: cs) = match splitNl cs with
      | [] => [[]]
      | l :: ls => if c = '\n' then [] :: l :: ls else (c :: l) :: ls := by
  rfl

theorem splitNl_ne_nil (cs : List Char) : splitNl cs ≠ [] := by
  induction cs with
  | nil => simp [splitNl]
  | cons c cs ih =>
    rw [splitNl_cons]
    cases h : splitNl cs with
    | nil => exact absurd h ih
    | cons l ls => by_cases hc : c = '\n' <;> simp [hc]

theorem splitNl_append_line (l rest : List Char) (h : '\n' ∉ l) :
    splitNl (l ++ '\n' :: rest) = l :: splitNl rest := by
  induction l with
  | nil =>
    rw [List.nil_append, splitNl_cons]
    cases hr : splitNl rest with
    | nil => exact absurd hr (splitNl_ne_nil rest)
    | cons a as => simp [← hr]
  | cons c cs ih =>
    have hc : c ≠ '\n' := fun hh => h (List.mem_cons.mpr (Or.inl hh.symm))
    have hcs : '\n' ∉ cs := fun hm => h (List.mem_cons_of_mem _ hm)
    rw [List.cons_append, splitNl_cons, ih hcs]
    simp [hc]

theorem reqContent_acc (ps : List String) (acc : String) :
    ps.foldl (fun a q => a ++ q ++ "\n") acc = acc ++ reqContent ps := by
  induction ps generalizing acc with
  | nil =>
    show acc = acc ++ ""
    rw [String.append_empty]
  | cons q qs ih =>
    show qs.foldl _ (acc ++ q ++ "\n") = acc ++ reqContent (q :: qs)
    rw [ih (acc ++ q ++ "\n")]
    show _ = acc ++ qs.foldl (fun a p => a ++ p ++ "\n") ("" ++ q ++ "\n")
    rw [ih ("" ++ q ++ "\n")]
    simp [String.append_assoc, String.empty_append]

theorem reqContent_cons (p : String) (ps : List String) :
    reqContent (p :: ps) = p ++ "\n" ++ reqContent ps := by
  show List.foldl _ ("" ++ p ++ "\n") ps = _
  rw [reqContent_acc]
  simp [String.empty_append]

theorem splitNl_reqContent (ps : List String) (h : ∀ p ∈ ps, '\n' ∉ p.data) :
    splitNl (reqContent ps).data = ps.map String.data ++ [[]] := by
  induction ps with
  | nil => rfl
  | cons p ps ih =>
    have h1 : '\n' ∉ p.data := h p (List.mem_cons_self _ _)
    have h2 : ∀ q ∈ ps, '\n' ∉ q.data := fun q hq => h q (List.mem_cons_of_mem _ hq)
    rw [reqContent_cons]
    have hdata : (p ++ "\n" ++ reqContent ps).data =
        p.data ++ '\n' :: (reqContent ps).data := by
      show (p.data ++ ['\n']) ++ (reqContent ps).data = _
      rw [List.append_assoc]
      rfl
    rw [hdata, splitNl_append_line _ _ h1, ih h2]
    rfl

theorem cleanup_present (fs' : FS) (d : FileData)
    (h : fs'.lookupFile "requirements.txt" = some d) :
    cleanup_requirements fs' (some "requirements.txt") =
      .ok (fs'.removeFile "requirements.txt") := by
  have hex : fs'.pathExists "requirements.txt" = true := pathExists_of_lookupFile _ _ _ h
  have hs : (fs'.lookupFile "requirements.txt").isSome = true := by
    rw [h]
    rfl
  have hcond : ("requirements.txt" != "" && fs'.pathExists "requirements.txt") = true := by
    rw [hex]
    rfl
  show (if ("requirements.txt" != "" && fs'.pathExists "requirements.txt") = true
      then os_remove fs' "requirements.txt" else Except.ok fs') = _
  rw [if_pos hcond]
  unfold os_remove
  rw [if_pos hs]

theorem main_requirements_deleted (fs0 : FS) (md bn mn od : String) (p : String)
    (ps : List String) (outcome : S3Outcome) (tempName : String)
    (htemp : tempName ≠ "requirements.txt")
    (hok : (main fs0 ⟨md, bn, mn, some (p :: ps), od⟩ outcome tempName true).isOk
      = true) :
    (main fs0 ⟨md, bn, mn, some (p :: ps), od⟩ outcome tempName true).toOption.map
      (fun r => r.fs.lookupFile "requirements.txt") = some none := by
  unfold main at hok ⊢
  cases hmk : os_makedirs fs0 od with
  | error e =>
    rw [hmk] at hok
    simp [Except.isOk, Except.toBool] at hok
  | ok fs1 =>
    clear hok
    cases outcome with
    | success =>
      simp only [create_requirements_file, create_model_package, upload_to_s3,
        List.isEmpty_cons, Bool.false_eq_true, if_false, if_true]
      rw [cleanup_present _ (FileData.text (reqContent (p :: ps)))]
      · simp [Except.toOption, lookupFile_removeFile_self]
      · rw [lookupFile_writeFile_ne _ _ _ _
            (Ne.symm (model_package_ne_requirements od mn)),
          lookupFile_removeFile_ne _ _ _ (Ne.symm htemp),
          lookupFile_writeFile_ne _ _ _ _ (Ne.symm htemp),
          lookupFile_writeFile_self]
    | clientError e =>
      simp only [create_requirements_file, create_model_package, upload_to_s3,
        List.isEmpty_cons, Bool.false_eq_true, if_false, if_true]
      rw [cleanup_present _ (FileData.text (reqContent (p :: ps)))]
      · simp [Except.toOption, lookupFile_removeFile_self]
      · rw [lookupFile_writeFile_ne _ _ _ _
            (Ne.symm (model_package_ne_requirements od mn)),
          lookupFile_removeFile_ne _ _ _ (Ne.symm htemp),
          lookupFile_writeFile_ne _ _ _ _ (Ne.symm htemp),
          lookupFile_writeFile_self]

/-! ### Claim theorems -/

/-- C1: for every upload call, a client-reported failure during the transfer
is caught inside `upload_to_s3`: the diagnostic line is printed and a `none`
result is returned to the caller (the function is total, so no error
propagates past the upload step). -/
theorem upload_failure_caught (file_path bucket_name s3_key e : String) :
    (upload_to_s3 (.clientError e) file_path bucket_name s3_key).1 = none ∧
    ("Error uploading to S3: " ++ e) ∈
      (upload_to_s3 (.clientError e) file_path bucket_name s3_key).2 := by
  refine ⟨rfl, ?_⟩
  simp [upload_to_s3]

/-- C10: the end-of-run manifest cleanup is guarded by an existence check:
if the manifest path does not exist at cleanup time, the step is a no-op
(the filesystem is unchanged) and never raises. -/
theorem cleanup_missing_is_noop (fs : FS) (rf : String)
    (h : fs.pathExists rf = false) :
    cleanup_requirements fs (some rf) = .ok fs := by
  simp [cleanup_requirements, h]

/-- Witness for C10 at a concrete filesystem with no `requirements.txt`. -/
theorem cleanup_missing_is_noop_witness :
    FS.pathExists ⟨[], []⟩ "requirements.txt" = false ∧
    cleanup_requirements ⟨[], []⟩ (some "requirements.txt") = .ok ⟨[], []⟩ :=
  ⟨rfl, cleanup_missing_is_noop ⟨[], []⟩ "requirements.txt" rfl⟩

/-- C7: in every execution of the archive builder the adapter script is
written to the fresh temporary file, added to the archive, and the temporary
file is deleted afterwards whether the add succeeds (`addOk = true`) or
raises (`addOk = false`): the `try`/`finally` guarantees the unlink. -/
theorem temp_script_lifecycle (fs : FS) (model_dir output_file : String)
    (rf : Option String) (tempName : String) (addOk : Bool)
    (hfresh : fs.pathExists tempName = false)
    (hout : tempName ≠ output_file) :
    ((create_model_package fs model_dir output_file rf tempName addOk).2.1).lookupFile
        tempName = none ∧
    (addOk = true → ∃ es,
      (create_model_package fs model_dir output_file rf tempName addOk).1 = .ok es ∧
      ("inference.py", some (.text create_inference_script)) ∈ es) := by
  constructor
  · cases addOk with
    | false =>
      show ((((fs.writeFile tempName (.text create_inference_script)).removeFile
          tempName).writeFile output_file (.archive _)).lookupFile tempName) = none
      rw [lookupFile_writeFile_ne _ _ _ _ hout, lookupFile_removeFile_self]
    | true =>
      show ((((fs.writeFile tempName (.text create_inference_script)).removeFile
          tempName).writeFile output_file (.archive _)).lookupFile tempName) = none
      rw [lookupFile_writeFile_ne _ _ _ _ hout, lookupFile_removeFile_self]
  · intro hok
    subst hok
    refine ⟨_, create_model_package_ok fs model_dir output_file rf tempName hfresh, ?_⟩
    exact List.mem_append_right _ (List.mem_singleton.mpr rfl)

/-- Witness for C7 at a concrete filesystem, with the add succeeding. -/
theorem temp_script_lifecycle_witness :
    FS.pathExists ⟨[("m", [("w", "W")])], []⟩ "tmp1" = false ∧
    ("tmp1" : String) ≠ "out.tar.gz" ∧
    (((create_model_package ⟨[("m", [("w", "W")])], []⟩ "m" "out.tar.gz" none "tmp1"
        true).2.1).lookupFile "tmp1" = none ∧
      (true = true → ∃ es,
        (create_model_package ⟨[("m", [("w", "W")])], []⟩ "m" "out.tar.gz" none "tmp1"
          true).1 = .ok es ∧
        ("inference.py", some (.text create_inference_script)) ∈ es)) :=
  ⟨rfl, by decide,
   temp_script_lifecycle ⟨[("m", [("w", "W")])], []⟩ "m" "out.tar.gz" none "tmp1" true
     rfl (by decide)⟩

/-- C5: the adapter script generator is a constant (pure, no inputs), so the
adapter-script archive entry is byte-identical across any two invocations of
the archive builder, whatever their filesystems and arguments. -/
theorem adapter_script_byte_identical (fs fs' : FS) (md out md' out' : String)
    (rf rf' : Option String) (t t' : String)
    (h : fs.pathExists t = false) (h' : fs'.pathExists t' = false) :
    ∃ es es',
      (create_model_package fs md out rf t true).1 = .ok es ∧
      (create_model_package fs' md' out' rf' t' true).1 = .ok es' ∧
      es.filter (fun e => e.1 == "inference.py") =
        [("inference.py", some (.text create_inference_script))] ∧
      es'.filter (fun e => e.1 == "inference.py") =
        es.filter (fun e => e.1 == "inference.py") := by
  obtain ⟨es, he, hfe⟩ := entries_filter_inference fs md out rf t h
  obtain ⟨es', he', hfe'⟩ := entries_filter_inference fs' md' out' rf' t' h'
  refine ⟨es, es', he, he', hfe, ?_⟩
  rw [hfe, hfe']

/-- Witness for C5: two concrete builds with different arguments. -/
theorem adapter_script_byte_identical_witness :
    FS.pathExists ⟨[], []⟩ "tmp2" = false ∧
    FS.pathExists ⟨[("m", [("a", "x")])], [("r.txt", .text "y")]⟩ "tmp3" = false ∧
    ∃ es es',
      (create_model_package ⟨[], []⟩ "m" "o.tar.gz" none "tmp2" true).1 = .ok es ∧
      (create_model_package ⟨[("m", [("a", "x")])], [("r.txt", .text "y")]⟩ "m"
        "p.tar.gz" (some "r.txt") "tmp3" true).1 = .ok es' ∧
      es.filter (fun e => e.1 == "inference.py") =
        [("inference.py", some (.text create_inference_script))] ∧
      es'.filter (fun e => e.1 == "inference.py") =
        es.filter (fun e => e.1 == "inference.py") :=
  ⟨rfl, rfl,
   adapter_script_byte_identical ⟨[], []⟩ ⟨[("m", [("a", "x")])], [("r.txt", .text "y")]⟩
     "m" "o.tar.gz" "m" "p.tar.gz" none (some "r.txt") "tmp2" "tmp3" rfl rfl⟩

/-- C3: a successful build produces exactly these top-level entries: the
model directory's contents under the prefix `model/` when the model
directory exists (and no error — the build still returns `.ok` — when it
does not), an entry named `requirements.txt` iff a requirements path was
provided (non-empty) and exists, and the inference adapter entry, always.
The final clause classifies every entry, so nothing else appears. -/
theorem archive_toplevel_contents (fs : FS) (model_dir output_file : String)
    (rf : Option String) (tempName : String)
    (hfresh : fs.pathExists tempName = false) :
    ∃ es, (create_model_package fs model_dir output_file rf tempName true).1 = .ok es ∧
      ("inference.py", some (.text create_inference_script)) ∈ es ∧
      ((∃ d, ("requirements.txt", d) ∈ es) ↔
        ∃ r, rf = some r ∧ r ≠ "" ∧ fs.pathExists r = true) ∧
      (∀ contents, fs.lookupDir model_dir = some contents →
        ("model", (none : Option FileData)) ∈ es ∧
        ∀ rc ∈ contents, ("model" ++ "/" ++ rc.1, some (FileData.text rc.2)) ∈ es) ∧
      (∀ e ∈ es,
        e.1 = "inference.py" ∨
        (fs.pathExists model_dir = true ∧
          (e.1 = "model" ∨ ∃ rel, e.1 = "model" ++ "/" ++ rel)) ∨
        (∃ r, rf = some r ∧ r ≠ "" ∧ fs.pathExists r = true ∧
          (e.1 = "requirements.txt" ∨ ∃ rel, e.1 = "requirements.txt" ++ "/" ++ rel))) := by
  refine ⟨_, create_model_package_ok fs model_dir output_file rf tempName hfresh,
    List.mem_append_right _ (List.mem_singleton.mpr rfl), ?_, ?_, ?_⟩
  · constructor
    · rintro ⟨d, hd⟩
      rcases List.mem_append.mp hd with hab | hc
      · rcases List.mem_append.mp hab with ha | hb
        · by_cases hex : fs.pathExists model_dir = true
          · rw [if_pos hex] at ha
            rcases tar_add_names fs model_dir "model" _ ha with h | ⟨rel, h⟩
            · exact absurd (show ("requirements.txt" : String) = "model" from h) (by decide)
            · exact absurd h.symm
                (append_ne_of_head ("model" ++ "/") rel "requirements.txt"
                  (by decide) (by decide))
          · rw [if_neg hex] at ha
            cases ha
        · obtain ⟨r, hr, h1, h2, _⟩ := mem_req_part fs rf _ hb
          exact ⟨r, hr, h1, h2⟩
      · have h := congrArg Prod.fst (List.mem_singleton.mp hc)
        exact absurd (show ("requirements.txt" : String) = "inference.py" from h) (by decide)
    · rintro ⟨r, rfl, h1, h2⟩
      obtain ⟨d, hd⟩ := tar_add_head fs r "requirements.txt" h2
      refine ⟨d, ?_⟩
      apply List.mem_append_left
      apply List.mem_append_right
      have hcond : (r != "" && fs.pathExists r) = true :=
        Bool.and_eq_true_iff.mpr ⟨bne_iff_ne.mpr h1, h2⟩
      show ("requirements.txt", d) ∈
        (if r != "" && fs.pathExists r then tar_add fs r "requirements.txt" else [])
      rw [if_pos hcond]
      exact hd
  · intro contents hc
    have hex : fs.pathExists model_dir = true := by simp [FS.pathExists, hc]
    constructor
    · apply List.mem_append_left
      apply List.mem_append_left
      rw [if_pos hex]
      unfold tar_add
      rw [hc]
      exact List.mem_cons_self _ _
    · intro rc hrc
      apply List.mem_append_left
      apply List.mem_append_left
      rw [if_pos hex]
      unfold tar_add
      rw [hc]
      exact List.mem_cons_of_mem _ (List.mem_map.mpr ⟨rc, hrc, rfl⟩)
  · intro e he
    rcases List.mem_append.mp he with hab | hc
    · rcases List.mem_append.mp hab with ha | hb
      · right
        left
        by_cases hex : fs.pathExists model_dir = true
        · rw [if_pos hex] at ha
          exact ⟨hex, tar_add_names fs model_dir "model" e ha⟩
        · rw [if_neg hex] at ha
          cases ha
      · right
        right
        exact mem_req_part fs rf e hb
    · left
      rw [List.mem_singleton.mp hc]

/-- Witness for C3 at a concrete filesystem holding a model directory and a
requirements file. -/
theorem archive_toplevel_contents_witness :
    FS.pathExists ⟨[("m", [("w", "W")])], [("r.txt", .text "y")]⟩ "tmp4" = false ∧
    ∃ es, (create_model_package ⟨[("m", [("w", "W")])], [("r.txt", .text "y")]⟩ "m"
        "o.tar.gz" (some "r.txt") "tmp4" true).1 = .ok es ∧
      ("inference.py", some (.text create_inference_script)) ∈ es ∧
      ((∃ d, ("requirements.txt", d) ∈ es) ↔
        ∃ r, (some "r.txt" : Option String) = some r ∧ r ≠ "" ∧
          FS.pathExists ⟨[("m", [("w", "W")])], [("r.txt", .text "y")]⟩ r = true) ∧
      (∀ contents,
        FS.lookupDir ⟨[("m", [("w", "W")])], [("r.txt", .text "y")]⟩ "m" = some contents →
        ("model", (none : Option FileData)) ∈ es ∧
        ∀ rc ∈ contents, ("model" ++ "/" ++ rc.1, some (FileData.text rc.2)) ∈ es) ∧
      (∀ e ∈ es,
        e.1 = "inference.py" ∨
        (FS.pathExists ⟨[("m", [("w", "W")])], [("r.txt", .text "y")]⟩ "m" = true ∧
          (e.1 = "model" ∨ ∃ rel, e.1 = "model" ++ "/" ++ rel)) ∨
        (∃ r, (some "r.txt" : Option String) = some r ∧ r ≠ "" ∧
          FS.pathExists ⟨[("m", [("w", "W")])], [("r.txt", .text "y")]⟩ r = true ∧
          (e.1 = "requirements.txt" ∨ ∃ rel, e.1 = "requirements.txt" ++ "/" ++ rel))) :=
  ⟨rfl, archive_toplevel_contents ⟨[("m", [("w", "W")])], [("r.txt", .text "y")]⟩ "m"
    "o.tar.gz" (some "r.txt") "tmp4" rfl⟩

/-- C6 counterexample: for the package list `["a\nb"]` the written manifest
has two lines, not one — the universally quantified claim (line count equals
the number of supplied names, each name on its own line) fails for a package
name containing a newline, since the writer just emits `name ++ "\n"`. -/
theorem requirements_line_count_cex :
    ((splitNl (reqContent ["a\nb"]).data).dropLast).length ≠
      (["a\nb"] : List String).length := by
  decide

/-- C6 (amended): for every sequence of package names none of which contains
a newline, `create_requirements_file` returns the fixed working-directory
filename `requirements.txt` and writes each name on its own line, in the
given order, so the line count equals the number of supplied names. -/
theorem requirements_file_lines (fs : FS) (packages : List String)
    (hnl : ∀ p ∈ packages, '\n' ∉ p.data) :
    (create_requirements_file fs packages).2.1 = "requirements.txt" ∧
    ((create_requirements_file fs packages).1).lookupFile "requirements.txt" =
      some (.text (reqContent packages)) ∧
    (splitNl (reqContent packages).data).dropLast = packages.map String.data ∧
    (splitNl (reqContent packages).data).dropLast.length = packages.length := by
  refine ⟨rfl, lookupFile_writeFile_self _ _ _, ?_, ?_⟩
  · rw [splitNl_reqContent packages hnl, List.dropLast_concat]
  · rw [splitNl_reqContent packages hnl, List.dropLast_concat, List.length_map]

/-- Witness for the amended C6 at the spec's example package list. -/
theorem requirements_file_lines_witness :
    (∀ p ∈ (["numpy==1.2", "scikit-learn==1.0"] : List String), '\n' ∉ p.data) ∧
    ((create_requirements_file ⟨[], []⟩ ["numpy==1.2", "scikit-learn==1.0"]).2.1 =
        "requirements.txt" ∧
      ((create_requirements_file ⟨[], []⟩
          ["numpy==1.2", "scikit-learn==1.0"]).1).lookupFile "requirements.txt" =
        some (.text (reqContent ["numpy==1.2", "scikit-learn==1.0"])) ∧
      (splitNl (reqContent ["numpy==1.2", "scikit-learn==1.0"]).data).dropLast =
        (["numpy==1.2", "scikit-learn==1.0"] : List String).map String.data ∧
      (splitNl (reqContent ["numpy==1.2", "scikit-learn==1.0"]).data).dropLast.length =
        (["numpy==1.2", "scikit-learn==1.0"] : List String).length) :=
  ⟨by decide, requirements_file_lines ⟨[], []⟩ ["numpy==1.2", "scikit-learn==1.0"]
    (by decide)⟩

/-- C2: for every run in which a requirements manifest was created (package
names supplied), the manifest `requirements.txt` is absent from the final
filesystem of any normally-returning run — whether the upload succeeded or
failed (the outcome is universally quantified): the cleanup step always
executes after the (caught) upload failure. -/
theorem manifest_deleted_both_outcomes (fs0 : FS) (args : Args) (outcome : S3Outcome)
    (tempName : String) (pkgs : List String)
    (hreq : args.requirements = some pkgs) (hnil : pkgs ≠ [])
    (htemp : tempName ≠ "requirements.txt")
    (hok : (main fs0 args outcome tempName true).isOk = true) :
    (main fs0 args outcome tempName true).toOption.map
      (fun r => r.fs.lookupFile "requirements.txt") = some none := by
  rcases args with ⟨md, bn, mn, reqs, od⟩
  have hreq' : reqs = some pkgs := hreq
  subst hreq'
  cases pkgs with
  | nil => exact absurd rfl hnil
  | cons p ps =>
    exact main_requirements_deleted fs0 md bn mn od p ps outcome tempName htemp hok

/-- Witness for C2: a concrete run whose upload fails with a client error;
the manifest is still gone at the end. -/
theorem manifest_deleted_both_outcomes_witness :
    (main ⟨[("m", [("w", "W")])], []⟩ ⟨"m", "b", "demo", some ["numpy==1.2"], "."⟩
        (.clientError "boom") "tmpA" true).isOk = true ∧
    (main ⟨[("m", [("w", "W")])], []⟩ ⟨"m", "b", "demo", some ["numpy==1.2"], "."⟩
        (.clientError "boom") "tmpA" true).toOption.map
      (fun r => r.fs.lookupFile "requirements.txt") = some none :=
  ⟨by decide, manifest_deleted_both_outcomes ⟨[("m", [("w", "W")])], []⟩
    ⟨"m", "b", "demo", some ["numpy==1.2"], "."⟩ (.clientError "boom") "tmpA"
    ["numpy==1.2"] rfl (by decide) (by decide) (by decide)⟩

/-- C9 (implicit): with package names supplied, the manifest is written by a
plain truncating write to the literal working-directory name
`requirements.txt`, so a pre-existing file of that name is overwritten
during the run and the file is deleted at the end of the run: its prior
contents are destroyed. -/
theorem preexisting_manifest_destroyed (fs0 : FS) (args : Args) (outcome : S3Outcome)
    (tempName : String) (pkgs : List String) (old : FileData)
    (hold : fs0.lookupFile "requirements.txt" = some old)
    (hreq : args.requirements = some pkgs) (hnil : pkgs ≠ [])
    (htemp : tempName ≠ "requirements.txt")
    (hok : (main fs0 args outcome tempName true).isOk = true) :
    ((create_requirements_file fs0 pkgs).1).lookupFile "requirements.txt" =
      some (.text (reqContent pkgs)) ∧
    (main fs0 args outcome tempName true).toOption.map
      (fun r => r.fs.lookupFile "requirements.txt") = some none := by
  refine ⟨lookupFile_writeFile_self _ _ _, ?_⟩
  rcases args with ⟨md, bn, mn, reqs, od⟩
  have hreq' : reqs = some pkgs := hreq
  subst hreq'
  cases pkgs with
  | nil => exact absurd rfl hnil
  | cons p ps =>
    exact main_requirements_deleted fs0 md bn mn od p ps outcome tempName htemp hok

/-- Witness for C9: a run over a filesystem already holding a
`requirements.txt` with old contents. -/
theorem preexisting_manifest_destroyed_witness :
    FS.lookupFile ⟨[("m", [("w", "W")])], [("requirements.txt", .text "OLD")]⟩
        "requirements.txt" = some (.text "OLD") ∧
    (main ⟨[("m", [("w", "W")])], [("requirements.txt", .text "OLD")]⟩
        ⟨"m", "b", "demo", some ["numpy==1.2"], "."⟩ .success "tmpB" true).isOk = true ∧
    (((create_requirements_file ⟨[("m", [("w", "W")])],
          [("requirements.txt", .text "OLD")]⟩ ["numpy==1.2"]).1).lookupFile
        "requirements.txt" = some (.text (reqContent ["numpy==1.2"])) ∧
      (main ⟨[("m", [("w", "W")])], [("requirements.txt", .text "OLD")]⟩
          ⟨"m", "b", "demo", some ["numpy==1.2"], "."⟩ .success "tmpB" true).toOption.map
        (fun r => r.fs.lookupFile "requirements.txt") = some none) :=
  ⟨rfl, by decide, preexisting_manifest_destroyed
    ⟨[("m", [("w", "W")])], [("requirements.txt", .text "OLD")]⟩
    ⟨"m", "b", "demo", some ["numpy==1.2"], "."⟩ .success "tmpB" ["numpy==1.2"]
    (.text "OLD") rfl rfl (by decide) (by decide) (by decide)⟩

/-- C4: for every model name, output directory and bucket, a
normally-returning run computes the local archive path as the output
directory joined with `<name>.tar.gz`, the storage key as exactly
`models/<name>.tar.gz`, and (on successful upload) the returned address as
exactly `s3://<bucket>/models/<name>.tar.gz`, regardless of the other
arguments. -/
theorem storage_addressing (fs0 : FS) (args : Args) (tempName : String)
    (hok : (main fs0 args .success tempName true).isOk = true) :
    (main fs0 args .success tempName true).toOption.map
      (fun r => (r.model_package, r.s3_key, r.s3_url)) =
      some (os_path_join args.output_dir (args.model_name ++ ".tar.gz"),
        "models/" ++ args.model_name ++ ".tar.gz",
        some ("s3://" ++ args.bucket_name ++ "/models/" ++ args.model_name
          ++ ".tar.gz")) := by
  rcases args with ⟨md, bn, mn, reqs, od⟩
  have url_eq : ("s3://" ++ bn ++ "/" ++ ("models/" ++ mn ++ ".tar.gz")) =
      "s3://" ++ bn ++ "/models/" ++ mn ++ ".tar.gz" := by
    simp only [String.append_assoc]
    rw [← String.append_assoc "/" "models/" (mn ++ ".tar.gz")]
    rfl
  unfold main at hok ⊢
  cases hmk : os_makedirs fs0 od with
  | error e =>
    rw [hmk] at hok
    simp [Except.isOk, Except.toBool] at hok
  | ok fs1 =>
    rw [hmk] at hok
    cases reqs with
    | none =>
      simp [create_model_package, upload_to_s3, cleanup_requirements,
        Except.toOption, url_eq]
    | some pkgs =>
      cases pkgs with
      | nil =>
        simp [create_model_package, upload_to_s3, cleanup_requirements,
          Except.toOption, url_eq]
      | cons p ps =>
        simp only [create_requirements_file, create_model_package, upload_to_s3,
          List.isEmpty_cons, Bool.false_eq_true, if_false, if_true] at hok ⊢
        split
        · rename_i e heq
          rw [heq] at hok
          simp [Except.isOk, Except.toBool] at hok
        · simp [Except.toOption, url_eq]

/-- Witness for C4 at a concrete successful run. -/
theorem storage_addressing_witness :
    (main ⟨[("m", [("w", "W")])], []⟩ ⟨"m", "b", "demo", some ["numpy==1.2"], "."⟩
        .success "tmpC" true).isOk = true ∧
    (main ⟨[("m", [("w", "W")])], []⟩ ⟨"m", "b", "demo", some ["numpy==1.2"], "."⟩
        .success "tmpC" true).toOption.map
      (fun r => (r.model_package, r.s3_key, r.s3_url)) =
      some (os_path_join "." ("demo" ++ ".tar.gz"), "models/" ++ "demo" ++ ".tar.gz",
        some ("s3://" ++ "b" ++ "/models/" ++ "demo" ++ ".tar.gz")) :=
  ⟨by decide, storage_addressing ⟨[("m", [("w", "W")])], []⟩
    ⟨"m", "b", "demo", some ["numpy==1.2"], "."⟩ "tmpC" (by decide)⟩

/-- C8: the upload outcome does not change the process's termination mode:
the run with a client error returns normally exactly when the run with a
successful upload does (same exit status — no distinct failure code), and a
normally-returning failed run prints the failure notice. -/
theorem upload_failure_exit_status (fs0 : FS) (args : Args) (tempName : String)
    (addOk : Bool) (e : String) :
    ((main fs0 args (.clientError e) tempName addOk).isOk =
      (main fs0 args .success tempName addOk).isOk) ∧
    ((main fs0 args (.clientError e) tempName addOk).isOk = true →
      (main fs0 args (.clientError e) tempName addOk).toOption.map
        (fun r => decide (("‚ùå Failed to upload model to S3") ∈ r.log))
        = some true) := by
  rcases args with ⟨md, bn, mn, reqs, od⟩
  unfold main
  cases hmk : os_makedirs fs0 od with
  | error er => exact ⟨rfl, fun h => by simp [Except.isOk, Except.toBool] at h⟩
  | ok fs1 =>
    cases addOk with
    | false =>
      cases reqs with
      | none => exact ⟨rfl, fun h => by
          simp [create_model_package, Except.isOk, Except.toBool] at h⟩
      | some pkgs =>
        cases pkgs with
        | nil => exact ⟨rfl, fun h => by
            simp [create_model_package, Except.isOk, Except.toBool] at h⟩
        | cons p ps => exact ⟨rfl, fun h => by
            simp [create_requirements_file, create_model_package,
              List.isEmpty_cons, Bool.false_eq_true, if_false,
              Except.isOk, Except.toBool] at h⟩
    | true =>
      cases reqs with
      | none =>
        refine ⟨rfl, fun h => ?_⟩
        simp [create_model_package, upload_to_s3, cleanup_requirements, Except.toOption]
      | some pkgs =>
        cases pkgs with
        | nil =>
          refine ⟨rfl, fun h => ?_⟩
          simp [create_model_package, upload_to_s3, cleanup_requirements,
            Except.toOption]
        | cons p ps =>
          simp only [create_requirements_file, create_model_package, upload_to_s3,
            List.isEmpty_cons, Bool.false_eq_true, if_false, if_true]
          split
          · exact ⟨rfl, fun h => by simp [Except.isOk, Except.toBool] at h⟩
          · refine ⟨rfl, fun h => ?_⟩
            simp [Except.toOption]

/-- Witness for C8 at a concrete run: the failing and succeeding runs both
return normally, and the failing run's log holds the failure notice. -/
theorem upload_failure_exit_status_witness :
    ((main ⟨[("m", [("w", "W")])], []⟩ ⟨"m", "b", "demo", some ["numpy==1.2"], "."⟩
        (.clientError "boom") "tmpD" true).isOk =
      (main ⟨[("m", [("w", "W")])], []⟩ ⟨"m", "b", "demo", some ["numpy==1.2"], "."⟩
        .success "tmpD" true).isOk) ∧
    (main ⟨[("m", [("w", "W")])], []⟩ ⟨"m", "b", "demo", some ["numpy==1.2"], "."⟩
        (.clientError "boom") "tmpD" true).isOk = true ∧
    (main ⟨[("m", [("w", "W")])], []⟩ ⟨"m", "b", "demo", some ["numpy==1.2"], "."⟩
        (.clientError "boom") "tmpD" true).toOption.map
      (fun r => decide (("‚ùå Failed to upload model to S3") ∈ r.log))
      = some true :=
  ⟨(upload_failure_exit_status ⟨[("m", [("w", "W")])], []⟩
      ⟨"m", "b", "demo", some ["numpy==1.2"], "."⟩ "tmpD" true "boom").1,
   by decide,
   (upload_failure_exit_status ⟨[("m", [("w", "W")])], []⟩
      ⟨"m", "b", "demo", some ["numpy==1.2"], "."⟩ "tmpD" true "boom").2 (by decide)⟩

end PrepareModel
